import Mathlib

/-!
# Verification of the lBIS / Intiface WSDM shim (`shim.py`)

A shallow embedding of the shim's core logic:

* the Lovense plain-text command translator `handle_intiface_message`
  (decode path: the byte frame is UTF-8 decoded upstream of the pure
  parsing logic modelled here; a decode failure produces a diagnostic
  only and never reaches the parsing code),
* the command queue coupling the upstream (Intiface) listener and the
  downstream (lBIS) sender, modelled as a list with a step relation,
* the per-connection behaviour of `intiface_client_loop` (handshake
  first, then frame processing),
* the exception dispatch of the inner loop of `lbis_websocket_sender`
  (`except asyncio.CancelledError: raise` before `except Exception: break`).

Machine floats are modelled by exact rationals (`ℚ`): every number the
shim computes is of the form `level / 20.0` with `0 ≤ level ≤ 20`, and the
claims compare such expressions with themselves, so exact arithmetic is a
faithful model. Strings are processed as their character lists, with the
relevant Python `str` methods (`strip`, `split`, `lower`, `endswith`,
`int(...)`) modelled below.
-/

/-- Python `str.strip()` whitespace set, restricted to the ASCII whitespace
characters (the shim's protocol vocabulary and arguments are ASCII). -/
def isPySpace (c : Char) : Bool :=
  c = ' ' || c = '\t' || c = '\n' || c = '\r' || c = '\x0b' || c = '\x0c'

/-- Python `s.strip()`: remove leading and trailing whitespace. -/
def pyStrip (cs : List Char) : List Char :=
  ((cs.dropWhile isPySpace).reverse.dropWhile isPySpace).reverse

/-- Python `s.split(sep)` for a one-character separator `sep`: split at every
occurrence of `sep`, keeping empty segments.  Always returns a non-empty
list (`"".split(':') == [""]`). -/
def pySplit (sep : Char) : List Char → List (List Char)
  | [] => [[]]
  | c :: rest =>
    if c = sep then [] :: pySplit sep rest
    else
      match pySplit sep rest with
      | s :: ss => (c :: s) :: ss
      | [] => [[c]]

/-- Digit-sequence part of Python `int(str)`: after the first digit, each
further character is a digit or a single `'_'` that must be followed by a
digit.  `acc` is the value of the digits consumed so far. -/
def pyDigitsCore (acc : Nat) : List Char → Option Nat
  | [] => some acc
  | c :: rest =>
    if c.isDigit then pyDigitsCore (10 * acc + (c.toNat - 48)) rest
    else if c = '_' then
      match rest with
      | d :: rest2 =>
        if d.isDigit then pyDigitsCore (10 * acc + (d.toNat - 48)) rest2
        else none
      | [] => none
    else none

/-- Unsigned decimal literal for Python `int(str)`: non-empty, starts with a
digit. -/
def pyParseNat : List Char → Option Nat
  | [] => none
  | c :: rest => if c.isDigit then pyDigitsCore (c.toNat - 48) rest else none

/-- Python `int(str)` on ASCII decimal input: strip whitespace, optional
sign, then digits (with `'_'` permitted between digits).  Returns `none`
where Python raises `ValueError`. -/
def pyInt (cs : List Char) : Option Int :=
  match pyStrip cs with
  | '+' :: rest => (pyParseNat rest).map (fun n => (n : Int))
  | '-' :: rest => (pyParseNat rest).map (fun n => -(n : Int))
  | stripped => (pyParseNat stripped).map (fun n => (n : Int))

/-- Outcome of `handle_intiface_message` on a decoded text frame.  The
constructors are the distinct branches of the source:

* `vibrate s` — `pump_command_queue.put(s)` is awaited (the `vibrate`
  branch with a valid level, and the `stop` branch with `s = 0`);
* `invalidLevel l` — "Invalid Lovense Vibrate level" (integer out of range);
* `invalidValue v` — "Invalid Lovense Vibrate value" (`int()` raised);
* `getBattery`, `deviceType` — recognized and deliberately ignored;
* `unhandled c` — "Unhandled Lovense plain text command" (text ends in `;`
  but the command token matches nothing);
* `unrecognized m` — "Decoded message not recognized as Lovense plain text"
  (text does not end in `;`). -/
inductive LovenseResult where
  | vibrate (speed : ℚ)
  | invalidLevel (level : Int)
  | invalidValue (value : String)
  | getBattery
  | deviceType
  | unhandled (command : String)
  | unrecognized (msg : String)
  deriving DecidableEq, Repr

/-- The command dispatch of `handle_intiface_message` (source lines
117–146), after the terminator check and the `split(':')`:  `command` is
`parts[0].strip()`, `value?` is `parts[1].strip()` when `len(parts) > 1`
and `None` otherwise.  The comparison is on `command.lower()`.
`speed = float(level) / 20.0` is modelled as the exact rational
`level / 20`, written `Rat.divInt level 20` (equal to `(level : ℚ) / 20`,
see `vibrate_speed_eq_div`). -/
def vocabDispatch (command : List Char) (value? : Option (List Char)) : LovenseResult :=
  let command_lower := command.map Char.toLower
  if command_lower = "vibrate".data ∧ value?.isSome then
    match pyInt (value?.getD []) with
    | some level =>
      if 0 ≤ level ∧ level ≤ 20 then
        LovenseResult.vibrate (Rat.divInt level 20)
      else
        LovenseResult.invalidLevel level
    | none => LovenseResult.invalidValue ⟨value?.getD []⟩
  else if command_lower = "stop".data then
    LovenseResult.vibrate 0
  else if command_lower = "getbattery".data then
    LovenseResult.getBattery
  else if command_lower = "devicetype".data then
    LovenseResult.deviceType
  else
    LovenseResult.unhandled ⟨command⟩

/-- `handle_intiface_message` on the character list of the decoded text:
`msg.endswith(';')`, then `parts = msg[:-1].split(':')`,
`command = parts[0].strip()`,
`value_str = parts[1].strip() if len(parts) > 1 else None`. -/
def handleChars (cs : List Char) : LovenseResult :=
  if cs.getLast? = some ';' then
    let parts := pySplit ':' cs.dropLast
    vocabDispatch (pyStrip (parts.headD []))
      (match parts with
       | _ :: v :: _ => some (pyStrip v)
       | _ => none)
  else
    LovenseResult.unrecognized ⟨cs⟩

/-- The pure translation performed by `handle_intiface_message`
(src/shim.py lines 104–154) on a successfully decoded frame. -/
def handle_intiface_message (msg : String) : LovenseResult :=
  handleChars msg.data

/-- The value `handle_intiface_message` enqueues onto `pump_command_queue`
for a given decoded frame, if any: exactly the `vibrate` outcomes await
`pump_command_queue.put`. -/
def enqueues (msg : String) : Option ℚ :=
  match handle_intiface_message msg with
  | LovenseResult.vibrate s => some s
  | _ => none

/-- `Rat.divInt` (kernel-computable) agrees with rational division, so the
`speed` in a `vibrate` outcome is literally `level / 20`. -/
theorem vibrate_speed_eq_div (level : Int) : Rat.divInt level 20 = (level : ℚ) / 20 :=
  Rat.divInt_eq_div level 20

example : handle_intiface_message "vibrate:10;" = LovenseResult.vibrate (mkRat 1 2) := by decide
example : handle_intiface_message "vibrate:0;" = LovenseResult.vibrate 0 := by decide
example : handle_intiface_message "vibrate:20;" = LovenseResult.vibrate 1 := by decide
example : handle_intiface_message "vibrate:21;" = LovenseResult.invalidLevel 21 := by decide
example : handle_intiface_message "vibrate:abc;" = LovenseResult.invalidValue "abc" := by decide
example : handle_intiface_message "vibrate;" = LovenseResult.unhandled "vibrate" := by decide
example : handle_intiface_message "STOP;" = LovenseResult.vibrate 0 := by decide
example : handle_intiface_message "vibrate:10" = LovenseResult.unrecognized "vibrate:10" := by decide
example : handle_intiface_message "foo;" = LovenseResult.unhandled "foo" := by decide
example : handle_intiface_message "vibrate:10:99;" = LovenseResult.vibrate (mkRat 1 2) := by decide
example : handle_intiface_message " vibrate : 10 ;" = LovenseResult.vibrate (mkRat 1 2) := by decide
example : handle_intiface_message "vibrate:-1;" = LovenseResult.invalidLevel (-1) := by decide

/-! ## Configuration constants (src/shim.py lines 23–26) -/

def WSDM_IDENTIFIER : String := "lovense"

def WSDM_ADDRESS : String := "6a797313-e431-4b9f-9fd0-3eef4c97df24"

def WSDM_VERSION : Int := 0

/-- A JSON value, as far as the handshake object needs one. -/
inductive JVal where
  | str (s : String)
  | int (n : Int)
  deriving DecidableEq, Repr

/-- The `handshake_msg` dict built in `intiface_client_loop` (lines
168–172), in source field order. -/
def handshake_msg : List (String × JVal) :=
  [("identifier", JVal.str WSDM_IDENTIFIER),
   ("address", JVal.str WSDM_ADDRESS),
   ("version", JVal.int WSDM_VERSION)]

/-! ## One upstream connection (`intiface_client_loop`, lines 162–191) -/

/-- An inbound websocket frame on the Intiface connection.  Binary frames
carry their (successfully) UTF-8 decoded payload; a payload that fails to
decode never reaches the parsing logic and enqueues nothing, so decodable
payloads suffice for the claims. -/
inductive WSFrame where
  | binary (payload : String)
  | text (s : String)
  | wsError
  | wsClosed
  deriving DecidableEq, Repr

/-- Observable actions of one upstream connection: what is sent on the
socket and what each inbound frame causes. -/
inductive UpAction where
  | sendHandshake (fields : List (String × JVal))
  | translated (r : LovenseResult)
  | logUnexpectedText (s : String)
  | disconnect
  deriving DecidableEq, Repr

/-- The `async for msg in ws` loop (lines 178–191): BINARY frames go to
`handle_intiface_message`; TEXT frames are only logged; an ERROR or CLOSED
frame breaks the loop to reconnect. -/
def processFrames : List WSFrame → List UpAction
  | [] => []
  | WSFrame.binary p :: rest =>
    UpAction.translated (handle_intiface_message p) :: processFrames rest
  | WSFrame.text s :: rest => UpAction.logUnexpectedText s :: processFrames rest
  | WSFrame.wsError :: _ => [UpAction.disconnect]
  | WSFrame.wsClosed :: _ => [UpAction.disconnect]

/-- One successful connection of `intiface_client_loop`: immediately after
connect the handshake text frame is sent (`ws.send_str(handshake_json)`,
line 175), then the inbound frames are processed. -/
def intiface_connection (frames : List WSFrame) : List UpAction :=
  UpAction.sendHandshake handshake_msg :: processFrames frames

/-! ## The command queue -/

/-- The queue effect of one decoded frame: the empty list or the single
value that `handle_intiface_message` awaits `pump_command_queue.put` on. -/
def enqueueList (msg : String) : List ℚ := (enqueues msg).toList

/-- Reachable contents of `pump_command_queue`: initially empty; the
upstream listener appends whatever `handle_intiface_message` enqueues;
the lBIS sender removes values from the front
(`pump_command_queue.get()`). -/
inductive QueueReach : List ℚ → Prop where
  | init : QueueReach []
  | recv (msg : String) {q : List ℚ} : QueueReach q → QueueReach (q ++ enqueueList msg)
  | take {v : ℚ} {q : List ℚ} : QueueReach (v :: q) → QueueReach q

/-- Joint history of the two link managers around `pump_command_queue`.
`enq`, `deq` and `sent` are histories, oldest first: every value ever
put, every value ever returned by `pump_command_queue.get()`, and every
value whose `ws.send_str` to the lBIS device succeeded. -/
structure ShimTrace where
  enq : List ℚ
  queue : List ℚ
  deq : List ℚ
  sent : List ℚ
  deriving DecidableEq, Repr

/-- Interleaved events of the two link managers.  Connection churn on
either side leaves the queue untouched: the upstream loop only ever puts,
and on an lBIS disconnect the queued commands are deliberately retained
(lines 99–100). -/
inductive ShimEv where
  | recv (msg : String)
  | sendOk
  | sendFail
  | upstreamChurn
  | lbisChurn
  deriving DecidableEq, Repr

/-- Effect of one event.  `sendOk`/`sendFail` with an empty queue model the
sender blocked in `get()`: nothing happens.  On `sendFail` the value taken
from the queue is lost (`break` to reconnect, lines 83–87). -/
def shimStep (s : ShimTrace) : ShimEv → ShimTrace
  | ShimEv.recv msg =>
    match enqueues msg with
    | some v => { s with enq := s.enq ++ [v], queue := s.queue ++ [v] }
    | none => s
  | ShimEv.sendOk =>
    match s.queue with
    | v :: rest => { s with queue := rest, deq := s.deq ++ [v], sent := s.sent ++ [v] }
    | [] => s
  | ShimEv.sendFail =>
    match s.queue with
    | v :: rest => { s with queue := rest, deq := s.deq ++ [v] }
    | [] => s
  | ShimEv.upstreamChurn => s
  | ShimEv.lbisChurn => s

/-- Run from the initial state (everything empty). -/
def shimRun (evs : List ShimEv) : ShimTrace :=
  evs.foldl shimStep ⟨[], [], [], []⟩

/-! ## Exception dispatch in `lbis_websocket_sender` (lines 56–87) -/

/-- Exceptions that can surface inside the inner `try` block:
`asyncio.CancelledError` delivered at the `await pump_command_queue.get()`
suspension point, or an ordinary `Exception` raised by the send.  In the
Python version the shim targets, `CancelledError` derives from
`BaseException`, not from `Exception`. -/
inductive PyExc where
  | cancelledError
  | sendException
  deriving DecidableEq, Repr

/-- `isinstance(e, Exception)`: what the `except Exception` clause
(line 83) would catch. -/
def matchesException : PyExc → Bool
  | PyExc.cancelledError => false
  | PyExc.sendException => true

/-- `isinstance(e, asyncio.CancelledError)`: what the
`except asyncio.CancelledError` clause (line 80) catches. -/
def matchesCancelledError : PyExc → Bool
  | PyExc.cancelledError => true
  | PyExc.sendException => false

/-- Result of one iteration of the inner `while True` (line 56). -/
inductive SenderOutcome where
  | sentValue (v : ℚ)
  | raisedCancelled
  | breakToReconnect
  | uncaught (e : PyExc)
  deriving DecidableEq, Repr

/-- One iteration: the `try` body either completes (a value was taken from
the queue and sent) or raises; the `except` clauses are tried in source
order — `asyncio.CancelledError` re-raises (lines 80–82) before
`Exception` breaks to reconnect (lines 83–87). -/
def senderIteration : Except PyExc ℚ → SenderOutcome
  | Except.ok v => SenderOutcome.sentValue v
  | Except.error e =>
    if matchesCancelledError e then SenderOutcome.raisedCancelled
    else if matchesException e then SenderOutcome.breakToReconnect
    else SenderOutcome.uncaught e

/-- The inner sender loop over a schedule of iteration results: the values
sent, and the outcome that terminated the loop (`none` when the schedule
is exhausted with the loop still running). -/
def senderLoop : List (Except PyExc ℚ) → List ℚ × Option SenderOutcome
  | [] => ([], none)
  | r :: rest =>
    match senderIteration r with
    | SenderOutcome.sentValue v =>
      let p := senderLoop rest
      (v :: p.1, p.2)
    | o => ([], some o)

/-! ## Helper lemmas -/

/-- `split` never returns an empty list (`"".split(':') == [""]`). -/
theorem pySplit_ne_nil (sep : Char) (cs : List Char) : pySplit sep cs ≠ [] := by
  cases cs with
  | nil => simp [pySplit]
  | cons c rest =>
    rw [pySplit]
    by_cases h : c = sep
    · simp [h]
    · rw [if_neg h]
      cases hs : pySplit sep rest with
      | nil => simp
      | cons s ss => simp

/-- Splitting a list whose head segment `xs` is separator-free peels off
exactly `xs`. -/
theorem pySplit_sep_cons (sep : Char) (xs ys : List Char) (h : sep ∉ xs) :
    pySplit sep (xs ++ sep :: ys) = xs :: pySplit sep ys := by
  induction xs with
  | nil => simp [pySplit]
  | cons x xs ih =>
    have hx : x ≠ sep := fun hh => h (hh ▸ List.mem_cons_self x xs)
    have hxs : sep ∉ xs := fun hh => h (List.mem_cons_of_mem x hh)
    rw [List.cons_append, pySplit, if_neg hx, ih hxs]

/-- A separator-free list splits into a single segment. -/
theorem pySplit_eq_single (sep : Char) (cs : List Char) (h : sep ∉ cs) :
    pySplit sep cs = [cs] := by
  induction cs with
  | nil => simp [pySplit]
  | cons c rest ih =>
    have hc : c ≠ sep := fun hh => h (hh ▸ List.mem_cons_self c rest)
    have hrest : sep ∉ rest := fun hh => h (List.mem_cons_of_mem c hh)
    rw [pySplit, if_neg hc, ih hrest]

/-- `handle_intiface_message` on a text that ends in the terminator:
strip the `';'`, split on `':'` and dispatch. -/
theorem handleChars_concat (cs : List Char) :
    handleChars (cs ++ [';']) =
      vocabDispatch (pyStrip ((pySplit ':' cs).headD []))
        (match pySplit ':' cs with
         | _ :: v :: _ => some (pyStrip v)
         | _ => none) := by
  unfold handleChars
  rw [if_pos (by simp), List.dropLast_concat]

/-- A `vibrate:<arg>;` frame with a colon-free argument dispatches on the
stripped argument. -/
theorem handleChars_vibrate_arg (s : List Char) (h : ':' ∉ s) :
    handleChars ("vibrate:".data ++ (s ++ [';'])) =
      vocabDispatch ("vibrate".data) (some (pyStrip s)) := by
  have heq : "vibrate:".data ++ (s ++ [';']) = ("vibrate".data ++ ':' :: s) ++ [';'] := by
    simp
  rw [heq, handleChars_concat, pySplit_sep_cons _ _ _ (by decide),
    pySplit_eq_single _ _ h]
  simp only [List.headD_cons]
  rw [show pyStrip ("vibrate".data) = "vibrate".data from by decide]

/-- The dispatch of a `vibrate` command with a present argument. -/
theorem vocabDispatch_vibrate (v : List Char) :
    vocabDispatch ("vibrate".data) (some v) =
      (match pyInt v with
       | some level =>
         if 0 ≤ level ∧ level ≤ 20 then
           LovenseResult.vibrate (Rat.divInt level 20)
         else LovenseResult.invalidLevel level
       | none => LovenseResult.invalidValue ⟨v⟩) := by
  have hcl : ("vibrate".data).map Char.toLower = "vibrate".data := by decide
  simp [vocabDispatch, hcl]

/-- A command token outside the vocabulary falls through every branch to
the unhandled report, whatever the argument. -/
theorem vocabDispatch_unhandled (c : List Char) (v? : Option (List Char))
    (h : c.map Char.toLower ∉
      ["vibrate".data, "stop".data, "getbattery".data, "devicetype".data]) :
    vocabDispatch c v? = LovenseResult.unhandled ⟨c⟩ := by
  simp only [List.mem_cons, List.mem_singleton, not_or] at h
  obtain ⟨h1, h2, h3, h4⟩ := h
  simp [vocabDispatch, h1, h2, h3, h4]

/-- Every speed a dispatch can produce lies in `[0, 1]`. -/
theorem vocabDispatch_speed_bounds (c : List Char) (v? : Option (List Char)) (s : ℚ)
    (h : vocabDispatch c v? = LovenseResult.vibrate s) : 0 ≤ s ∧ s ≤ 1 := by
  simp only [vocabDispatch] at h
  by_cases h1 : List.map Char.toLower c = "vibrate".data ∧ v?.isSome = true
  · rw [if_pos h1] at h
    cases hp : pyInt (v?.getD []) with
    | none => simp only [hp] at h; cases h
    | some level =>
      simp only [hp] at h
      by_cases h2 : 0 ≤ level ∧ level ≤ 20
      · rw [if_pos h2] at h
        injection h with h'
        subst h'
        rw [vibrate_speed_eq_div]
        refine ⟨div_nonneg (by exact_mod_cast h2.1) (by norm_num), ?_⟩
        rw [div_le_one (by norm_num)]
        exact_mod_cast h2.2
      · rw [if_neg h2] at h; cases h
  · rw [if_neg h1] at h
    by_cases h2 : List.map Char.toLower c = "stop".data
    · rw [if_pos h2] at h
      injection h with h'
      subst h'
      norm_num
    · rw [if_neg h2] at h
      by_cases h3 : List.map Char.toLower c = "getbattery".data
      · rw [if_pos h3] at h; cases h
      · rw [if_neg h3] at h
        by_cases h4 : List.map Char.toLower c = "devicetype".data
        · rw [if_pos h4] at h; cases h
        · rw [if_neg h4] at h; cases h

/-- Every speed `handle_intiface_message` can produce lies in `[0, 1]`. -/
theorem handle_speed_bounds (msg : String) (s : ℚ)
    (h : handle_intiface_message msg = LovenseResult.vibrate s) : 0 ≤ s ∧ s ≤ 1 := by
  unfold handle_intiface_message handleChars at h
  split at h
  · exact vocabDispatch_speed_bounds _ _ _ h
  · cases h

/-- Every value ever put on `pump_command_queue` lies in `[0, 1]`. -/
theorem enqueues_bounds (msg : String) (v : ℚ)
    (h : enqueues msg = some v) : 0 ≤ v ∧ v ≤ 1 := by
  unfold enqueues at h
  split at h
  · rename_i s hs
    cases h
    exact handle_speed_bounds _ _ hs
  · cases h

/-- Dispatch of `vibrate` with an argument that parses to an in-range
level. -/
theorem vocabDispatch_vibrate_some (v : List Char) (level : ℤ)
    (hv : pyInt v = some level) (hr : 0 ≤ level ∧ level ≤ 20) :
    vocabDispatch ("vibrate".data) (some v) =
      LovenseResult.vibrate (Rat.divInt level 20) := by
  rw [vocabDispatch_vibrate]
  simp only [hv]
  rw [if_pos hr]

/-! ## The claims -/

/-- C1.  For every integer `L` with `0 ≤ L ≤ 20`, translating the decoded
frame `"vibrate:L;"` produces the intensity `L / 20` (exact division, the
rational model of the float division `float(level) / 20.0`) and enqueues
exactly that value onto the command queue; in particular `"vibrate:10;"`
yields `1/2 = 0.5`, `"vibrate:0;"` yields `0` and `"vibrate:20;"` yields
`1`. -/
theorem vibrate_level_scaling :
    ∀ L : ℕ, L ≤ 20 →
      handle_intiface_message ("vibrate:" ++ Nat.repr L ++ ";") =
        LovenseResult.vibrate ((L : ℚ) / 20) ∧
      enqueues ("vibrate:" ++ Nat.repr L ++ ";") = some ((L : ℚ) / 20) := by
  have hfin : ∀ L : ℕ, L ≤ 20 →
      (':' ∉ (Nat.repr L).data ∧ pyInt (pyStrip (Nat.repr L).data) = some (L : ℤ)) := by
    decide
  intro L hL
  obtain ⟨hcolon, hparse⟩ := hfin L hL
  have hdata : ("vibrate:" ++ Nat.repr L ++ ";").data
      = "vibrate:".data ++ ((Nat.repr L).data ++ [';']) := by
    simp [String.data_append]
  have hmain : handle_intiface_message ("vibrate:" ++ Nat.repr L ++ ";") =
      LovenseResult.vibrate ((L : ℚ) / 20) := by
    rw [handle_intiface_message, hdata, handleChars_vibrate_arg _ hcolon,
      vocabDispatch_vibrate_some _ _ hparse ⟨by positivity, by exact_mod_cast hL⟩,
      vibrate_speed_eq_div]
    norm_num
  exact ⟨hmain, by simp only [enqueues, hmain]⟩

/-- Witness for C1 at `L = 10`. -/
theorem vibrate_level_scaling_witness :
    handle_intiface_message "vibrate:10;" = LovenseResult.vibrate ((10 : ℚ) / 20) ∧
    enqueues "vibrate:10;" = some ((10 : ℚ) / 20) := by
  have h := vibrate_level_scaling 10 (by decide)
  exact_mod_cast h

/-- C2.  A `vibrate` frame whose (colon-free) argument does not parse as an
integer in `[0, 20]` — it parses out of range or not at all — enqueues
nothing onto the command queue. -/
theorem vibrate_bad_arg_enqueues_nothing :
    ∀ s : List Char, ':' ∉ s →
      (∀ L : ℤ, pyInt (pyStrip s) = some L → L < 0 ∨ 20 < L) →
      enqueues ("vibrate:" ++ String.mk s ++ ";") = none := by
  intro s hc hout
  have hdata : ("vibrate:" ++ String.mk s ++ ";").data
      = "vibrate:".data ++ (s ++ [';']) := by
    simp [String.data_append]
  rw [enqueues, handle_intiface_message, hdata, handleChars_vibrate_arg _ hc,
    vocabDispatch_vibrate]
  cases hp : pyInt (pyStrip s) with
  | none => simp [hp]
  | some L =>
    have hno : ¬ (0 ≤ L ∧ L ≤ 20) := by
      rcases hout L hp with h | h <;> omega
    simp [hp, hno]

/-- Witness for C2 at `"vibrate:21;"` (out of range) and `"vibrate:abc;"`
(not an integer). -/
theorem vibrate_bad_arg_witness :
    enqueues "vibrate:21;" = none ∧ enqueues "vibrate:abc;" = none := by
  constructor
  · exact vibrate_bad_arg_enqueues_nothing ("21".data) (by decide)
      (fun L hL => by
        rw [show pyInt (pyStrip ("21".data)) = some 21 from by decide] at hL
        injection hL with h'
        omega)
  · exact vibrate_bad_arg_enqueues_nothing ("abc".data) (by decide)
      (fun L hL => by
        rw [show pyInt (pyStrip ("abc".data)) = none from by decide] at hL
        cases hL)

/-- All sixteen casings of `stop`. -/
def stopVariants : List String :=
  ["stop", "stoP", "stOp", "stOP", "sTop", "sToP", "sTOp", "sTOP",
   "Stop", "StoP", "StOp", "StOP", "STop", "SToP", "STOp", "STOP"]

/-- Mixed-case frames for the rest of the vocabulary, with their expected
translations. -/
def caseVocabTests : List (String × LovenseResult) :=
  [("VIBRATE:10;", LovenseResult.vibrate (mkRat 1 2)),
   ("Vibrate:10;", LovenseResult.vibrate (mkRat 1 2)),
   ("vIbRaTe:10;", LovenseResult.vibrate (mkRat 1 2)),
   ("GETBATTERY;", LovenseResult.getBattery),
   ("GetBattery;", LovenseResult.getBattery),
   ("getBATTERY;", LovenseResult.getBattery),
   ("DEVICETYPE;", LovenseResult.deviceType),
   ("DeviceType;", LovenseResult.deviceType),
   ("dEvIcEtYpE;", LovenseResult.deviceType)]

/-- C3.  `"stop;"` in every letter casing (all sixteen variants, including
`"STOP;"` and `"Stop;"`) enqueues the intensity `0`; command-token
matching is case-insensitive across the whole vocabulary. -/
theorem stop_any_case_enqueues_zero :
    (∀ c ∈ stopVariants,
      handle_intiface_message (c ++ ";") = LovenseResult.vibrate 0 ∧
      enqueues (c ++ ";") = some 0) ∧
    (∀ p ∈ caseVocabTests, handle_intiface_message p.1 = p.2) := by
  constructor
  · decide
  · decide

/-- Witness for C3 at `"STOP;"` and `"VIBRATE:10;"`. -/
theorem stop_any_case_witness :
    handle_intiface_message ("STOP" ++ ";") = LovenseResult.vibrate 0 ∧
    handle_intiface_message "VIBRATE:10;" = LovenseResult.vibrate (mkRat 1 2) :=
  ⟨(stop_any_case_enqueues_zero.1 "STOP" (by decide)).1,
   stop_any_case_enqueues_zero.2 ("VIBRATE:10;", LovenseResult.vibrate (mkRat 1 2))
     (by decide)⟩

/-- C4.  A decoded text that does not end in `';'` translates to nothing
and is reported as unrecognized; a text that ends in `';'` whose command
token is outside the vocabulary translates to nothing and is reported as
unhandled; and the two reports are distinct outcomes. -/
theorem unrecognized_vs_unhandled :
    ∀ msg : String,
      (msg.data.getLast? ≠ some ';' →
        handle_intiface_message msg = LovenseResult.unrecognized msg ∧
        enqueues msg = none) ∧
      (∀ cmd : List Char, msg.data.getLast? = some ';' →
        cmd = pyStrip ((pySplit ':' msg.data.dropLast).headD []) →
        cmd.map Char.toLower ∉
          ["vibrate".data, "stop".data, "getbattery".data, "devicetype".data] →
        handle_intiface_message msg = LovenseResult.unhandled ⟨cmd⟩ ∧
        enqueues msg = none) ∧
      (∀ a b : String, LovenseResult.unrecognized a ≠ LovenseResult.unhandled b) := by
  intro msg
  refine ⟨?_, ?_, fun a b h => LovenseResult.noConfusion h⟩
  · intro h
    have hh : handle_intiface_message msg = LovenseResult.unrecognized msg := by
      rw [handle_intiface_message, handleChars, if_neg h]
    exact ⟨hh, by simp only [enqueues, hh]⟩
  · intro cmd hsemi hcmd hvocab
    have hh : handle_intiface_message msg = LovenseResult.unhandled ⟨cmd⟩ := by
      rw [handle_intiface_message, handleChars, if_pos hsemi]
      show vocabDispatch (pyStrip ((pySplit ':' msg.data.dropLast).headD []))
          (match pySplit ':' msg.data.dropLast with
           | _ :: v :: _ => some (pyStrip v)
           | _ => none) = LovenseResult.unhandled ⟨cmd⟩
      rw [← hcmd]
      exact vocabDispatch_unhandled cmd _ hvocab
    exact ⟨hh, by simp only [enqueues, hh]⟩

/-- Witness for C4 at `"vibrate:10"` (no terminator) and `"foo;"` (unknown
command). -/
theorem unrecognized_vs_unhandled_witness :
    handle_intiface_message "vibrate:10" = LovenseResult.unrecognized "vibrate:10" ∧
    handle_intiface_message "foo;" = LovenseResult.unhandled "foo" :=
  ⟨((unrecognized_vs_unhandled "vibrate:10").1 (by decide)).1,
   ((unrecognized_vs_unhandled "foo;").2.1 ("foo".data) (by decide) (by decide)
     (by decide)).1⟩

/-- Counterexample to C5 as stated: the frame `"vibrate;"` (missing
argument) is NOT classified as an invalid-value error — `value_str is not
None` fails, so the `vibrate` branch is never entered and the frame falls
through to the unhandled-command report, a different classification from
the invalid-value report that a non-integer argument receives. -/
theorem vibrate_missing_arg_not_invalid_value :
    handle_intiface_message "vibrate;" = LovenseResult.unhandled "vibrate" ∧
    handle_intiface_message "vibrate:abc;" = LovenseResult.invalidValue "abc" ∧
    LovenseResult.unhandled "vibrate" ≠ LovenseResult.invalidValue "abc" := by
  refine ⟨by decide, by decide, by decide⟩

/-- C5 (amended).  Translating `"vibrate;"` (missing argument) produces no
value — nothing is enqueued — but it is classified as an unhandled
command, not as an invalid-value error; the invalid-value classification
applies to present but non-integer arguments such as `"vibrate:abc;"`
(which also enqueues nothing). -/
theorem vibrate_missing_arg_unhandled :
    handle_intiface_message "vibrate;" = LovenseResult.unhandled "vibrate" ∧
    enqueues "vibrate;" = none ∧
    handle_intiface_message "vibrate:abc;" = LovenseResult.invalidValue "abc" ∧
    enqueues "vibrate:abc;" = none := by
  refine ⟨by decide, by decide, by decide, by decide⟩

/-- C6.  Queue invariant: every value `handle_intiface_message` ever
enqueues is a rational in the closed interval `[0, 1]`, so every reachable
content of `pump_command_queue` consists of normalized intensities only. -/
theorem queue_values_normalized :
    ∀ q : List ℚ, QueueReach q → ∀ v ∈ q, 0 ≤ v ∧ v ≤ 1 := by
  intro q hq
  induction hq with
  | init => intro v hv; cases hv
  | recv msg hq ih =>
    intro v hv
    rcases List.mem_append.mp hv with h | h
    · exact ih v h
    · have hm : enqueues msg = some v := by
        unfold enqueueList at h
        cases he : enqueues msg <;> rw [he] at h <;> simp_all
      exact enqueues_bounds _ _ hm
  | take hq ih =>
    intro v hv
    exact ih v (List.mem_cons_of_mem _ hv)

/-- Witness for C6: the queue state reached by translating
`"vibrate:10;"` from the empty queue contains only values in `[0, 1]`. -/
theorem queue_values_normalized_witness :
    0 ≤ (mkRat 1 2) ∧ (mkRat 1 2) ≤ 1 :=
  queue_values_normalized ([] ++ enqueueList "vibrate:10;")
    (QueueReach.recv "vibrate:10;" QueueReach.init) (mkRat 1 2) (by decide)

/-- `shimStep` preserves the accounting `enq = deq ++ queue`. -/
theorem shimStep_enq_eq (s : ShimTrace) (e : ShimEv)
    (h : s.enq = s.deq ++ s.queue) :
    (shimStep s e).enq = (shimStep s e).deq ++ (shimStep s e).queue := by
  cases e with
  | recv msg =>
    cases he : enqueues msg with
    | none => simpa [shimStep, he] using h
    | some v => simp [shimStep, he, h, List.append_assoc]
  | sendOk =>
    cases hq : s.queue with
    | nil => simp only [shimStep, hq]; rw [h, hq]
    | cons v rest => simp only [shimStep, hq]; rw [h, hq]; simp
  | sendFail =>
    cases hq : s.queue with
    | nil => simp only [shimStep, hq]; rw [h, hq]
    | cons v rest => simp only [shimStep, hq]; rw [h, hq]; simp
  | upstreamChurn => simpa [shimStep] using h
  | lbisChurn => simpa [shimStep] using h

/-- `shimStep` preserves "the sent history is an order-preserving
selection of the dequeued history". -/
theorem shimStep_sent_sublist (s : ShimTrace) (e : ShimEv)
    (h : List.Sublist s.sent s.deq) :
    List.Sublist (shimStep s e).sent (shimStep s e).deq := by
  cases e with
  | recv msg => cases he : enqueues msg <;> simpa [shimStep, he] using h
  | sendOk =>
    cases hq : s.queue with
    | nil => simpa [shimStep, hq] using h
    | cons v rest =>
      simp only [shimStep, hq]
      exact List.Sublist.append h (List.Sublist.refl [v])
  | sendFail =>
    cases hq : s.queue with
    | nil => simpa [shimStep, hq] using h
    | cons v rest =>
      simp only [shimStep, hq]
      exact h.trans (List.sublist_append_left s.deq [v])
  | upstreamChurn => simpa [shimStep] using h
  | lbisChurn => simpa [shimStep] using h

/-- Without a send failure, `shimStep` keeps sent and dequeued equal. -/
theorem shimStep_sent_eq_deq (s : ShimTrace) (e : ShimEv)
    (hne : e ≠ ShimEv.sendFail) (h : s.sent = s.deq) :
    (shimStep s e).sent = (shimStep s e).deq := by
  cases e with
  | recv msg => cases he : enqueues msg <;> simpa [shimStep, he] using h
  | sendOk =>
    cases hq : s.queue with
    | nil => simpa [shimStep, hq] using h
    | cons v rest => simp [shimStep, hq, h]
  | sendFail => exact absurd rfl hne
  | upstreamChurn => simpa [shimStep] using h
  | lbisChurn => simpa [shimStep] using h

/-- The invariants of the joint trace, from any invariant-satisfying
start state. -/
theorem shimRun_from_invariant (evs : List ShimEv) :
    ∀ s : ShimTrace, s.enq = s.deq ++ s.queue → List.Sublist s.sent s.deq →
      (evs.foldl shimStep s).enq =
        (evs.foldl shimStep s).deq ++ (evs.foldl shimStep s).queue
      ∧ List.Sublist (evs.foldl shimStep s).sent (evs.foldl shimStep s).deq
      ∧ ((∀ e ∈ evs, e ≠ ShimEv.sendFail) → s.sent = s.deq →
          (evs.foldl shimStep s).sent = (evs.foldl shimStep s).deq) := by
  induction evs with
  | nil => exact fun s h1 h2 => ⟨h1, h2, fun _ h => h⟩
  | cons e evs ih =>
    intro s h1 h2
    obtain ⟨g1, g2, g3⟩ := ih (shimStep s e) (shimStep_enq_eq s e h1)
      (shimStep_sent_sublist s e h2)
    refine ⟨g1, g2, fun hnf hsd => ?_⟩
    exact g3 (fun x hx => hnf x (List.mem_cons_of_mem _ hx))
      (shimStep_sent_eq_deq s e (hnf e (List.mem_cons_self _ _)) hsd)

/-- C7.  The command queue is strictly FIFO: along any interleaving of
upstream frames, sends, send failures and connection churn on either
link, the dequeued history is exactly a prefix of the enqueued history
(the enqueued history is the dequeued history followed by the current
queue), the successfully sent history is an order-preserving selection of
the dequeued history, and when no send fails the sent history equals the
dequeued history — values reach the actuator in exactly the order they
were enqueued. -/
theorem command_queue_fifo :
    ∀ evs : List ShimEv,
      (shimRun evs).enq = (shimRun evs).deq ++ (shimRun evs).queue
      ∧ (shimRun evs).deq <+: (shimRun evs).enq
      ∧ List.Sublist (shimRun evs).sent (shimRun evs).deq
      ∧ ((∀ e ∈ evs, e ≠ ShimEv.sendFail) →
          (shimRun evs).sent = (shimRun evs).deq) := by
  intro evs
  obtain ⟨g1, g2, g3⟩ :=
    shimRun_from_invariant evs ⟨[], [], [], []⟩ rfl (List.Sublist.refl _)
  exact ⟨g1, ⟨(shimRun evs).queue, g1.symm⟩, g2, fun h => g3 h rfl⟩

/-- A demonstration schedule: enqueue `0.2`, `0.5`, `0.0` with connection
churn on both links interleaved, and drain. -/
def fifoDemo : List ShimEv :=
  [ShimEv.recv "vibrate:4;", ShimEv.lbisChurn, ShimEv.recv "vibrate:10;",
   ShimEv.sendOk, ShimEv.upstreamChurn, ShimEv.recv "stop;",
   ShimEv.sendOk, ShimEv.sendOk]

/-- Witness for C7 on `fifoDemo`: no send fails, so the values reach the
actuator in exactly the enqueue order `[1/5, 1/2, 0]`. -/
theorem command_queue_fifo_witness :
    (∀ e ∈ fifoDemo, e ≠ ShimEv.sendFail) ∧
    (shimRun fifoDemo).sent = (shimRun fifoDemo).deq ∧
    (shimRun fifoDemo).sent = [mkRat 1 5, mkRat 1 2, 0] :=
  ⟨by decide, (command_queue_fifo fifoDemo).2.2.2 (by decide), by decide⟩

/-- Does an upstream action send a handshake frame? -/
def isHandshakeSend (a : UpAction) : Bool :=
  match a with
  | UpAction.sendHandshake _ => true
  | _ => false

/-- Processing inbound frames never sends a handshake: only the connect
sequence does. -/
theorem processFrames_no_handshake :
    ∀ frames : List WSFrame, ∀ a ∈ processFrames frames,
      ∀ f, a ≠ UpAction.sendHandshake f := by
  intro frames
  induction frames with
  | nil => intro a ha; cases ha
  | cons fr rest ih =>
    intro a ha f
    cases fr with
    | binary p =>
      rcases List.mem_cons.mp ha with h | h
      · subst h; intro hh; cases hh
      · exact ih a h f
    | text s =>
      rcases List.mem_cons.mp ha with h | h
      · subst h; intro hh; cases hh
      · exact ih a h f
    | wsError =>
      rcases List.mem_cons.mp ha with h | h
      · subst h; intro hh; cases hh
      · cases h
    | wsClosed =>
      rcases List.mem_cons.mp ha with h | h
      · subst h; intro hh; cases hh
      · cases h

/-- C8.  On every successful upstream connection exactly one handshake
text frame is sent, before any inbound frame is processed, and it is a
JSON object with exactly three fields: the protocol identifier string,
the fixed address string, and integer version `0`. -/
theorem handshake_first_and_wellformed :
    ∀ frames : List WSFrame,
      (intiface_connection frames).head? = some (UpAction.sendHandshake handshake_msg)
      ∧ (∀ a ∈ processFrames frames, ∀ f, a ≠ UpAction.sendHandshake f)
      ∧ (intiface_connection frames).countP isHandshakeSend = 1
      ∧ handshake_msg.map Prod.fst = ["identifier", "address", "version"]
      ∧ handshake_msg = [("identifier", JVal.str WSDM_IDENTIFIER),
          ("address", JVal.str WSDM_ADDRESS), ("version", JVal.int 0)] := by
  intro frames
  have hzero : (processFrames frames).countP isHandshakeSend = 0 := by
    rw [List.countP_eq_zero]
    intro a ha
    have hne := processFrames_no_handshake frames a ha
    cases a with
    | sendHandshake f => exact absurd rfl (hne f)
    | translated r => simp [isHandshakeSend]
    | logUnexpectedText s => simp [isHandshakeSend]
    | disconnect => simp [isHandshakeSend]
  refine ⟨rfl, processFrames_no_handshake frames, ?_, by decide, rfl⟩
  rw [intiface_connection, List.countP_cons, hzero]
  simp [isHandshakeSend]

/-- Witness for C8 on a one-frame connection. -/
theorem handshake_first_witness :
    (intiface_connection [WSFrame.binary "vibrate:10;"]).head? =
      some (UpAction.sendHandshake handshake_msg) ∧
    UpAction.translated (handle_intiface_message "vibrate:10;") ≠
      UpAction.sendHandshake handshake_msg :=
  ⟨(handshake_first_and_wellformed [WSFrame.binary "vibrate:10;"]).1,
   (handshake_first_and_wellformed [WSFrame.binary "vibrate:10;"]).2.1
     (UpAction.translated (handle_intiface_message "vibrate:10;")) (by decide)
     handshake_msg⟩

/-- C9.  A task cancellation delivered while the sender awaits the next
queue value is re-raised — the `except asyncio.CancelledError` clause runs
before, and instead of, the generic `except Exception` that breaks to
reconnect — and it terminates the sender loop immediately. -/
theorem cancellation_propagates :
    senderIteration (Except.error PyExc.cancelledError) = SenderOutcome.raisedCancelled
    ∧ senderIteration (Except.error PyExc.cancelledError) ≠ SenderOutcome.breakToReconnect
    ∧ (∀ rest : List (Except PyExc ℚ),
        senderLoop (Except.error PyExc.cancelledError :: rest)
          = ([], some SenderOutcome.raisedCancelled)) := by
  refine ⟨rfl, by decide, fun rest => rfl⟩

/-- Witness for C9 on a concrete schedule. -/
theorem cancellation_propagates_witness :
    senderLoop [Except.error PyExc.cancelledError, Except.ok 0]
      = ([], some SenderOutcome.raisedCancelled) :=
  cancellation_propagates.2.2 [Except.ok 0]

/-- C10.  With more than one `':'` in the frame, only the first segment is
the command token and only the second is the argument; everything after
the second segment is ignored, so `"vibrate:10:<anything>;"` — in
particular `"vibrate:10:99;"` — enqueues `1/2 = 0.5`; and both the command
and the argument token are whitespace-stripped before matching. -/
theorem colon_segments_and_strip :
    (∀ junk : String,
      handle_intiface_message ("vibrate:10:" ++ junk ++ ";") =
        LovenseResult.vibrate (mkRat 1 2)
      ∧ enqueues ("vibrate:10:" ++ junk ++ ";") = some (mkRat 1 2))
    ∧ handle_intiface_message "vibrate:10:99;" = LovenseResult.vibrate (mkRat 1 2)
    ∧ handle_intiface_message " vibrate : 10 ;" = LovenseResult.vibrate (mkRat 1 2)
    ∧ handle_intiface_message "\t sToP :ignored;" = LovenseResult.vibrate 0 := by
  refine ⟨?_, by decide, by decide, by decide⟩
  intro junk
  have hdata : ("vibrate:10:" ++ junk ++ ";").data
      = ("vibrate".data ++ ':' :: ("10".data ++ ':' :: junk.data)) ++ [';'] := by
    simp [String.data_append]
  have hmain : handle_intiface_message ("vibrate:10:" ++ junk ++ ";") =
      LovenseResult.vibrate (mkRat 1 2) := by
    rw [handle_intiface_message, hdata, handleChars_concat,
      pySplit_sep_cons _ _ _ (by decide), pySplit_sep_cons _ _ _ (by decide)]
    show vocabDispatch (pyStrip ("vibrate".data)) (some (pyStrip ("10".data)))
        = LovenseResult.vibrate (mkRat 1 2)
    decide
  exact ⟨hmain, by simp only [enqueues, hmain]⟩
